import Mathlib

/-!
Verification of the anatomylens V11 exporter
(`scripts/python/export_anatomy.py`), a batch job that resolves a curated
registry of anatomical structure names against a 3D scene, collapses
bilateral left/right pairs, classifies each structure, allocates
collision-free mesh ids and emits one metadata record per exported
structure.

The embedding below models the pure data pipeline of the script.  Host
scene-graph operations (Blender object lookup, duplication, parenting,
baking) are external collaborators: a scene is modelled as a partial map
from structure names to `SceneObj` values carrying the quantities the
pipeline reads (the snapshot geometry center and world translation taken
by `precompute_world_transforms` before any mutation, plus the current
world translation seen at processing time, which earlier mutations may
have changed).  Scene coordinates are modelled as exact rationals; the
script's Python floats carry the same arithmetic up to rounding, and no
claim below depends on float rounding.  Python strings are modelled as
Lean `String`s, with the string operations of the script implemented on
the underlying character lists.
-/

namespace AnatomyLens

/-- Side of a structure as extracted from its name suffix
(`extract_side_and_base`). -/
inductive Side where
  | left
  | right
  | midline
deriving DecidableEq

/-- A 3D point or translation, modelled over exact rationals. -/
abbrev Vec3 : Type := ℚ × ℚ × ℚ

/-- Squared Euclidean distance between two points.  The script computes
`(current_pos - precomputed_pos).length`; comparisons of that length
against a nonnegative tolerance are equivalent to comparisons of this
squared distance against the squared tolerance. -/
def dist2 (a b : Vec3) : ℚ :=
  (a.1 - b.1) ^ 2 + (a.2.1 - b.2.1) ^ 2 + (a.2.2 - b.2.2) ^ 2

/-- World matrix of a scene node: its translation together with the
remaining 3x3 linear block (rotation/scale), which the corruption check
never inspects. -/
structure Mat4 where
  trans : Vec3
  lin : Vec3 × Vec3 × Vec3
deriving DecidableEq

/-- Scene node data consumed by the pipeline.  `snapCenter` and `snapT`
are the world geometry center and world translation captured by
`precompute_world_transforms` before any mutation; `curT` is the world
translation the node has when it is processed (possibly corrupted by
earlier mutations); `bakedLocation` is the location of the detached
copy after `transform_apply` and `origin_set`, an external scene-graph
result that `export_torso` discards (`copy, _ = process_...`). -/
structure SceneObj where
  snapCenter : Vec3
  snapT : Vec3
  curT : Vec3
  bakedLocation : Vec3
deriving DecidableEq

/- ============================================================
   Character-level string helpers.
   Python `str.lower`, `str.endswith`, `in` (substring),
   single-character `str.replace`, `"__"`-collapsing and
   `str.strip("_")`, implemented on `List Char`.
   ============================================================ -/

/-- Python `name.lower()` (ASCII names). -/
def toLowerS (s : String) : String := ⟨s.data.map Char.toLower⟩

/-- Python `s.endswith(suffix)`. -/
def strEndsWith (s suffix : String) : Bool := suffix.data.isSuffixOf s.data

/-- Python `s[:-2]` for a string known to have length at least 2. -/
def dropLast2 (s : String) : String := ⟨s.data.take (s.data.length - 2)⟩

/-- Containment of `p` as a contiguous run inside `s`. -/
def isInfixL (p : List Char) : List Char → Bool
  | [] => p.isEmpty
  | c :: rest => p.isPrefixOf (c :: rest) || isInfixL p rest

/-- Python `kw in s` (substring containment). -/
def containsSub (kw s : String) : Bool := isInfixL kw.data s.data

/-- Python `any(w in s for w in kws)`. -/
def containsAny (kws : List String) (s : String) : Bool :=
  kws.any (fun kw => containsSub kw s)

/-- Python single-character `s.replace(a, b)` (character-wise map). -/
def replaceChar (a b : Char) (s : List Char) : List Char :=
  s.map (fun c => if c = a then b else c)

/-- Python `s.replace(a, "")` for a single character `a`. -/
def removeChar (a : Char) (s : List Char) : List Char :=
  s.filter (fun c => c ≠ a)

/-- One pass of Python `s.replace("__", "_")`: non-overlapping,
left-to-right. -/
def replaceUU : List Char → List Char
  | '_' :: '_' :: rest => '_' :: replaceUU rest
  | c :: rest => c :: replaceUU rest
  | [] => []

/-- Python `"__" in s`. -/
def hasUU : List Char → Bool
  | '_' :: '_' :: _ => true
  | _ :: rest => hasUU rest
  | [] => false

/-- Fuel-bounded form of the script's `while "__" in clean:` loop; each
iteration strictly shrinks the string, so `s.length` passes suffice. -/
def collapseUU_go : Nat → List Char → List Char
  | 0, s => s
  | n + 1, s => if hasUU s then collapseUU_go n (replaceUU s) else s

/-- The script's `while "__" in clean: clean = clean.replace("__", "_")`. -/
def collapseUU (s : List Char) : List Char := collapseUU_go s.length s

/-- Remove leading occurrences of `a`. -/
def stripLead (a : Char) : List Char → List Char
  | c :: rest => if c = a then stripLead a rest else c :: rest
  | [] => []

/-- Python `s.strip("_")` for a single strip character. -/
def stripBoth (a : Char) (s : List Char) : List Char :=
  (stripLead a (stripLead a s).reverse).reverse

/-- The character-normalization block shared by every path of
`normalize_mesh_id`: replace space/hyphen/period by `_`, delete
parentheses, collapse repeated `_`, strip leading and trailing `_`. -/
def cleanChars (s : List Char) : List Char :=
  stripBoth '_'
    (collapseUU
      (removeChar ')'
        (removeChar '('
          (replaceChar '.' '_'
            (replaceChar '-' '_'
              (replaceChar ' ' '_' s))))))

/- ============================================================
   Bilateral structure analysis
   (`extract_side_and_base`, `find_bilateral_pairs`,
   `filter_for_export`).
   ============================================================ -/

/-- Source `extract_side_and_base`: strip an exact `.l` / `.r` suffix;
any other name is midline with the name unchanged as base. -/
def extract_side_and_base (name : String) : String × Side :=
  if strEndsWith name ".l" then (dropLast2 name, Side.left)
  else if strEndsWith name ".r" then (dropLast2 name, Side.right)
  else (name, Side.midline)

/-- Registry as produced by `get_all_structure_names`: a mapping from
structure name to region, in insertion order (Python dict).  Keys are
unique in the script (dict keys); no lemma below needs that. -/
abbrev Registry : Type := List (String × String)

/-- Source `find_bilateral_pairs`, reduced to the one observation its
result serves downstream: `base in bilateral_pairs`.  The dict built by
the script maps each base name to its `.l` / `.r` member names and
keeps only bases with both; membership of `base` in it is exactly the
conjunction below (the member names are recoverable as `base ++ ".l"`
and `base ++ ".r"`, see `pair_member_names`). -/
def is_bilateral_pair (names : Registry) (base : String) : Bool :=
  (names.any fun p => decide (extract_side_and_base p.1 = (base, Side.left))) &&
  (names.any fun p => decide (extract_side_and_base p.1 = (base, Side.right)))

/-- Source `filter_for_export`: keep left-side and midline names; keep
right-side names only when they have no left counterpart (orphans);
record skipped right-side names of complete pairs. -/
def filter_for_export (pairs : String → Bool) :
    Registry → Registry × List String
  | [] => ([], [])
  | (name, region) :: rest =>
    let res := filter_for_export pairs rest
    if (extract_side_and_base name).2 = Side.right then
      if pairs (extract_side_and_base name).1 then
        (res.1, name :: res.2)
      else
        ((name, region) :: res.1, res.2)
    else
      ((name, region) :: res.1, res.2)

/- ============================================================
   Anatomical type detection (`get_anatomical_type`) and depth
   layers (`compute_structure_layers`), V11 keyword tables.
   ============================================================ -/

/-- Fascia keyword list of the V11 classifier. -/
def fascia_keywords : List String :=
  ["fascia", "aponeurosis", "tract", "retinaculum", "tendinous arch"]

/-- Tendon / tendon-sheath keyword list. -/
def tendon_keywords : List String := ["tendon", "sheath"]

/-- Muscle keyword list of the V11 classifier. -/
def muscle_keywords : List String :=
  ["muscle", "muscul",
   "abdominis", "dorsi", "oblique", "diaphragm",
   "levator", "rotator",
   "brachii", "brachialis", "coracobrachialis",
   "deltoid", "supinator", "pronator",
   "pollicis", "indicis", "digiti",
   "interossei", "lumbrical", "opponens",
   "flexor carpi", "extensor carpi",
   "flexor digitorum", "extensor digitorum",
   "femoris", "gastrocnemius", "soleus",
   "adductor", "obturator", "sphincter",
   "hallucis", "psoas",
   "frontalis", "occipitalis", "temporoparietalis",
   "orbicularis", "corrugator", "procerus",
   "nasalis", "depressor", "zygomaticus",
   "risorius", "mentalis", "buccinator", "platysma",
   "masseter", "temporalis", "pterygoid",
   "genioglossus", "hyoglossus", "styloglossus", "palatoglossus",
   "digastric", "mylohyoid", "geniohyoid", "stylohyoid",
   "sternohyoid", "sternothyroid", "thyrohyoid", "omohyoid",
   "constrictor", "palatopharyngeus", "stylopharyngeus", "salpingopharyngeus",
   "cricothyroid", "thyroarytenoid", "thyro-arytenoid",
   "cricoarytenoid", "crico-arytenoid",
   "aryepiglottic", "ary-epiglottic", "vocalis",
   "sternocleidomastoid", "scalenus",
   "longus colli", "longus capitis",
   "splenius", "semispinalis",
   "rectus capitis", "obliquus capitis",
   "rectus superior", "rectus inferior",
   "rectus medialis", "rectus lateralis",
   "oblique muscle", "levator palpebrae"]

/-- Bone keyword list of the V11 classifier. -/
def bone_keywords : List String :=
  ["bone", "vertebra", "rib", "sternum", "sacrum", "coccyx",
   "ilium", "ischium", "pubis", "hip bone",
   "atlas", "axis", "xiphoid",
   "humerus", "radius", "ulna", "scapula", "clavicle",
   "capitate", "hamate", "lunate", "pisiform",
   "scaphoid", "trapezium", "trapezoid", "triquetrum",
   "metacarpal", "phalanx", "phalang",
   "femur", "tibia", "fibula", "patella",
   "talus", "calcaneus", "navicular", "cuboid", "cuneiform",
   "metatarsal",
   "frontal bone", "parietal bone", "temporal bone", "occipital bone",
   "sphenoid", "ethmoid",
   "mandible", "maxilla", "zygomatic", "nasal bone", "nasal concha",
   "lacrimal", "palatine", "vomer", "hyoid"]

/-- Ligament keyword list. -/
def ligament_keywords : List String :=
  ["ligament", "ligamentum", "zona orbicularis"]

/-- Cartilage keyword list. -/
def cartilage_keywords : List String :=
  ["cartilage", "disc", "meniscus", "labrum", "symphysis",
   "nucleus pulposus", "thyroid cartilage", "cricoid",
   "arytenoid", "epiglott", "nasal septal"]

/-- Source `get_anatomical_type`: ordered keyword cascade over the
lowercased name.  V11 checks fascia, then tendon/sheath, then capsule,
then muscle, then bone, ligament, cartilage, membrane, bursa,
capsule-of, with `"other"` as the catch-all. -/
def get_anatomical_type (name : String) : String :=
  let nl := toLowerS name
  if containsAny fascia_keywords nl then "fascia"
  else if containsAny tendon_keywords nl then "tendon"
  else if containsSub "articular capsule" nl || containsSub "capsule" nl then "capsule"
  else if containsAny muscle_keywords nl then "muscle"
  else if containsAny bone_keywords nl then "bone"
  else if containsAny ligament_keywords nl then "ligament"
  else if containsAny cartilage_keywords nl then "cartilage"
  else if containsSub "membrane" nl then "membrane"
  else if containsAny ["bursa", "bursae"] nl then "bursa"
  else if containsAny ["frenula capsulae", "capsule of"] nl then "capsule"
  else "other"

/-- Deep-muscle keyword list of `compute_structure_layers`. -/
def deep_muscle_keywords : List String :=
  ["multifid", "rotat", "interspinal", "intertransvers",
   "transversus thoracis", "innermost", "diaphragm",
   "pelvic floor", "coccygeus", "levator ani", "pubo",
   "obturator internus", "piriformis", "gemell"]

/-- Intermediate-muscle keyword list of `compute_structure_layers`. -/
def intermediate_muscle_keywords : List String :=
  ["internal", "erector", "spinalis", "longissimus",
   "iliocostalis", "semispinal", "oblique", "quadratus",
   "psoas", "iliacus", "obturator externus"]

/-- Per-name body of source `compute_structure_layers` (the script maps
this over every found object name and the export loop reads the result
back with default 3). -/
def structure_layer (name : String) : Nat :=
  let anat_type := get_anatomical_type name
  let nl := toLowerS name
  if anat_type = "bone" ∨ anat_type = "cartilage" then 0
  else if anat_type = "ligament" ∨ anat_type = "membrane" then 1
  else if anat_type = "fascia" then 4
  else if anat_type = "bursa" then 3
  else if anat_type = "muscle" then
    if containsAny deep_muscle_keywords nl then 1
    else if containsAny intermediate_muscle_keywords nl then 2
    else 3
  else 3

/- ============================================================
   Broken-parent-chain special handling.
   ============================================================ -/

/-- Source `BROKEN_PARENT_CHAIN_PATTERNS`: every entry is commented out
in V11, so the list is empty. -/
def BROKEN_PARENT_CHAIN_PATTERNS : List String := []

/-- Source `needs_location_sum_fix`. -/
def needs_location_sum_fix (obj_name : String) : Bool :=
  BROKEN_PARENT_CHAIN_PATTERNS.any
    (fun pattern => containsSub pattern (toLowerS obj_name))

/- ============================================================
   Mesh id generation (`normalize_mesh_id` and the collision
   loop of `export_torso`).
   ============================================================ -/

/-- Source `normalize_mesh_id`.  Mirrors the Python control flow: the
name is lowercased; when `is_bilateral` the `.l` / `.r` suffix (tried in
that order) is stripped and the remainder cleaned; otherwise a suffix is
converted to a trailing `_l` / `_r` tag appended after cleaning; the
shared cleaning block is `cleanChars`. -/
def normalize_mesh_id (name : String) (is_bilateral : Bool) : String :=
  let clean := toLowerS name
  if is_bilateral then
    if strEndsWith clean ".l" then ⟨cleanChars (dropLast2 clean).data⟩
    else if strEndsWith clean ".r" then ⟨cleanChars (dropLast2 clean).data⟩
    else ⟨cleanChars clean.data⟩
  else
    if strEndsWith clean ".l" then ⟨cleanChars (dropLast2 clean).data ++ ['_', 'l']⟩
    else if strEndsWith clean ".r" then ⟨cleanChars (dropLast2 clean).data ++ ['_', 'r']⟩
    else ⟨cleanChars clean.data⟩

/-- Modelled from the spec (4.6 Identifier Allocator), following its
words exactly: "replace whitespace/hyphens/periods/parentheses with a
single separator character; collapse repeated separators; strip
leading/trailing separators".  Parentheses are REPLACED by the
separator here; the code instead deletes them, which is where code and
spec diverge (see `C6_counterexample`). -/
def cleanCharsSpec (s : List Char) : List Char :=
  stripBoth '_'
    (collapseUU
      (replaceChar ')' '_'
        (replaceChar '(' '_'
          (replaceChar '.' '_'
            (replaceChar '-' '_'
              (replaceChar ' ' '_' s))))))

/-- Modelled from the spec (4.6 Identifier Allocator), for comparison
with `normalize_mesh_id`: lowercase; strip the side suffix entirely if
bilateral, otherwise convert it to a trailing side tag; replace
whitespace/hyphens/periods/parentheses with a single separator;
collapse repeated separators; strip leading/trailing separators. -/
def normalizeId_spec (name : String) (is_bilateral : Bool) : String :=
  let lower := toLowerS name
  let base :=
    if strEndsWith lower ".l" ∨ strEndsWith lower ".r" then dropLast2 lower else lower
  let tag : List Char :=
    if strEndsWith lower ".l" then (if is_bilateral then [] else ['_', 'l'])
    else if strEndsWith lower ".r" then (if is_bilateral then [] else ['_', 'r'])
    else []
  ⟨cleanCharsSpec base.data ++ tag⟩

/-- The allocator as the amended C6 describes it: identical to
`normalizeId_spec` except that parentheses are deleted rather than
replaced by the separator, matching the code's
`.replace("(", "").replace(")", "")`. -/
def normalizeId_amended (name : String) (is_bilateral : Bool) : String :=
  let lower := toLowerS name
  let base :=
    if strEndsWith lower ".l" ∨ strEndsWith lower ".r" then dropLast2 lower else lower
  let tag : List Char :=
    if strEndsWith lower ".l" then (if is_bilateral then [] else ['_', 'l'])
    else if strEndsWith lower ".r" then (if is_bilateral then [] else ['_', 'r'])
    else []
  ⟨cleanChars base.data ++ tag⟩

/-- Decimal digit character, for the collision counter. -/
def digitChar : Nat → Char
  | 0 => '0' | 1 => '1' | 2 => '2' | 3 => '3' | 4 => '4'
  | 5 => '5' | 6 => '6' | 7 => '7' | 8 => '8' | _ => '9'

/-- Structural worker for `natDigits`; the fuel bounds the number of
digits, and `natDigits` supplies enough for the fallback branch to be
unreachable. -/
def natDigits_go : Nat → Nat → List Char
  | 0, n => [digitChar n]
  | fuel + 1, n =>
    if n < 10 then [digitChar n]
    else natDigits_go fuel (n / 10) ++ [digitChar (n % 10)]

/-- Decimal digits of a natural number, most significant first: the
characters Python interpolates for `f"{counter}"`. -/
def natDigits (n : Nat) : List Char := natDigits_go n n

/-- Candidate id `f"{base_id}_{counter}"` of the collision loop. -/
def candidate (base : String) (counter : Nat) : String :=
  ⟨base.data ++ '_' :: natDigits counter⟩

/-- Body of the collision `while` loop of `export_torso`, with explicit
fuel; each iteration advances the counter by one.  `fresh_id` supplies
enough fuel for the loop to always find an unused candidate, so the
fuel-exhausted branch is unreachable (`fresh_id_not_mem`). -/
def fresh_go (used : List String) (base : String) : Nat → Nat → String
  | 0, counter => candidate base counter
  | fuel + 1, counter =>
    if candidate base counter ∈ used then fresh_go used base fuel (counter + 1)
    else candidate base counter

/-- The collision loop of `export_torso`: start from the normalized
base id and append `_1`, `_2`, ... until the id is not in `used_ids`. -/
def fresh_id (used : List String) (base : String) : String :=
  if base ∈ used then fresh_go used base (used.length + 1) 1 else base

/- ============================================================
   Transform helpers (`blender_to_threejs`, `mirror_center_x`)
   and the transform-integrity check of
   `process_standard_object`.
   ============================================================ -/

/-- Floor of a rational, computed on its normal form. -/
def floorQ (x : ℚ) : ℤ := x.num.fdiv x.den

/-- Rounding to 4 decimal places, Python `round(x, 4)`.  The script
rounds Python floats (ties to even); the model rounds exact rationals
to the nearest 4-decimal value (ties up).  No claim depends on tie
behaviour. -/
def round4 (x : ℚ) : ℚ := mkRat (floorQ (x * 10000 + 1 / 2)) 10000

/-- Source `blender_to_threejs`: convert Blender Z-up to Three.js Y-up
and round each component: `[x, z, -y]`. -/
def blender_to_threejs (loc : Vec3) : Vec3 :=
  (round4 loc.1, round4 loc.2.2, round4 (-loc.2.1))

/-- Source `mirror_center_x`: negate the X component. -/
def mirror_center_x (center : Vec3) : Vec3 :=
  (-center.1, center.2.1, center.2.2)

/-- Corruption test of `process_standard_object`: the script computes
`position_diff = (current_pos - precomputed_pos).length` and sets
`needs_matrix_fix = position_diff > 0.001`.  Comparing the nonnegative
Euclidean length with the nonnegative tolerance is equivalent to
comparing the squared distance with the squared tolerance, which is the
decidable form used here; `needs_matrix_fix_iff_length` restates it
through `Real.sqrt`. -/
def needs_matrix_fix (current precomputed : Mat4) : Bool :=
  decide (dist2 current.trans precomputed.trans > (1 / 1000 : ℚ) ^ 2)

/-- Which of the two `process_standard_object` branches ran. -/
inductive FixPath where
  | corrective
  | standard
deriving DecidableEq

/-- Observable outcome of `process_standard_object` on the detached
copy: the branch taken, the copy's parent after the branch, and the
copy's world matrix entering the bake (external `transform_apply` /
`origin_set` operations follow and are out of scope). -/
structure ProcResult where
  path : FixPath
  parent : Option String
  world : Mat4
deriving DecidableEq

/-- Source `process_standard_object`, branch structure.  When the
current world translation deviates from the snapshot, the copy is
unparented without keeping transform and its world matrix is set to the
snapshot matrix; otherwise the parent is cleared with
`CLEAR_KEEP_TRANSFORM`, preserving the current world matrix. -/
def process_standard_object (_copyParent : Option String)
    (current precomputed : Mat4) : ProcResult :=
  if needs_matrix_fix current precomputed then
    { path := FixPath.corrective, parent := none, world := precomputed }
  else
    { path := FixPath.standard, parent := none, world := current }

/- ============================================================
   The export orchestrator (`export_torso`).
   ============================================================ -/

/-- Scene resolution, the external collaborator behind
`find_structure_in_blender`: a partial map from registry names to mesh
scene nodes (exact lookup plus normalized retry, out of scope). -/
abbrev Scene : Type := String → Option SceneObj

/-- Source `find_all_registry_objects`: resolve every name of the
(filtered) registry independently; a miss is recorded in `missing`,
order preserved. -/
def find_all_registry_objects (resolve : Scene) :
    Registry → List (String × String × SceneObj) × List String
  | [] => ([], [])
  | (name, region) :: rest =>
    let res := find_all_registry_objects resolve rest
    match resolve name with
    | some obj => ((name, region, obj) :: res.1, res.2)
    | none => (res.1, name :: res.2)

/-- Which processing function the loop dispatched to:
`process_broken_parent_object` (location-sum reconstruction) or
`process_standard_object`. -/
inductive FixKind where
  | locationSum
  | standard
deriving DecidableEq

/-- One metadata record of `metadata["structures"]`, plus two
model-level bookkeeping fields: `side` (the loop's local variable,
which drives the run statistics) and `proc` (which processing function
the loop dispatched to). -/
structure ExportRecord where
  meshId : String
  originalName : String
  baseName : String
  anatType : String
  layer : Nat
  region : String
  bilateral : Bool
  center : Vec3
  mirroredCenter : Option Vec3
  side : Side
  proc : FixKind
deriving DecidableEq

/-- Body of the per-structure loop of `export_torso` for one resolved
structure: dispatch on `needs_location_sum_fix`, take the pre-computed
snapshot center as the world center, derive side/base, decide
bilaterality, allocate the mesh id against `used`, convert the center
to Y-up and build the metadata record (with `mirroredCenter` only when
bilateral). -/
def mkRecord (pairs : String → Bool) (used : List String)
    (name region : String) (obj : SceneObj) : ExportRecord :=
  let proc := if needs_location_sum_fix name then FixKind.locationSum
              else FixKind.standard
  let world_center := obj.snapCenter
  let base_name := (extract_side_and_base name).1
  let side := (extract_side_and_base name).2
  let is_bil := pairs base_name
  let base_id := normalize_mesh_id name is_bil
  let mesh_id := fresh_id used base_id
  let center_threejs := blender_to_threejs world_center
  { meshId := mesh_id
    originalName := name
    baseName := base_name
    anatType := get_anatomical_type name
    layer := structure_layer name
    region := region
    bilateral := is_bil
    center := center_threejs
    mirroredCenter := if is_bil then some (mirror_center_x center_threejs) else none
    side := side
    proc := proc }

/-- The per-structure loop of `export_torso`, threading the per-run
`used_ids` set. -/
def export_loop (pairs : String → Bool) (used : List String) :
    List (String × String × SceneObj) → List ExportRecord × List String
  | [] => ([], used)
  | (name, region, obj) :: rest =>
    let r := mkRecord pairs used name region obj
    let res := export_loop pairs (r.meshId :: used) rest
    (r :: res.1, res.2)

/-- Run statistics accumulated by the loop (`stats` dict). -/
structure RunStats where
  bilateral : Nat
  midline : Nat
  orphan : Nat
deriving DecidableEq

/-- One `stats` update of the loop: bilateral structures count as
bilateral, midline as midline, and one-sided structures without a
counterpart as orphans. -/
def stat_step (st : RunStats) (r : ExportRecord) : RunStats :=
  if r.bilateral then { st with bilateral := st.bilateral + 1 }
  else if r.side = Side.midline then { st with midline := st.midline + 1 }
  else { st with orphan := st.orphan + 1 }

/-- The run statistics of a record list. -/
def runStats (records : List ExportRecord) : RunStats :=
  records.foldl stat_step ⟨0, 0, 0⟩

/-- Result of a run: the metadata records, the registry names with no
scene node, the right-side names dropped by the deduplicator, and the
run statistics. -/
structure PipelineResult where
  records : List ExportRecord
  missing : List String
  skippedRight : List String
  stats : RunStats

/-- Source `export_torso`, the fixed orchestration sequence: identify
bilateral pairs from the registry, filter to the export set, resolve
scene nodes, then process every resolved structure in registry order.
Registry loading/parsing and the glTF/JSON writers are external. -/
def export_torso (names : Registry) (resolve : Scene) : PipelineResult :=
  let pairs := is_bilateral_pair names
  let (export_names, skipped_right) := filter_for_export pairs names
  let (found, missing) := find_all_registry_objects resolve export_names
  let (records, _) := export_loop pairs [] found
  { records := records
    missing := missing
    skippedRight := skipped_right
    stats := runStats records }

/- ============================================================
   Lemmas: side extraction.
   ============================================================ -/

/-- Names extracted as left carry an exact `.l` suffix and the base is
the name with the suffix dropped. -/
theorem extract_left_name {n b : String}
    (h : extract_side_and_base n = (b, Side.left)) :
    n = ⟨b.data ++ ['.', 'l']⟩ := by
  unfold extract_side_and_base at h
  split_ifs at h with hl hr
  · have hb : dropLast2 n = b := congrArg Prod.fst h
    have hsuf : ['.', 'l'] <:+ n.data := by
      have hl' : (".l").data.isSuffixOf n.data = true := hl
      exact List.isSuffixOf_iff_suffix.mp hl'
    obtain ⟨t, ht⟩ := hsuf
    have hbd : b.data = t := by
      rw [← hb]
      show n.data.take (n.data.length - 2) = t
      rw [← ht]
      have hlen : (t ++ ['.', 'l']).length - 2 = t.length := by simp
      rw [hlen, List.take_left]
    apply String.ext
    show n.data = b.data ++ ['.', 'l']
    rw [hbd, ht]
  · exact absurd (congrArg Prod.snd h) (by simp)
  · exact absurd (congrArg Prod.snd h) (by simp)

/-- Names extracted as right carry an exact `.r` suffix and the base is
the name with the suffix dropped. -/
theorem extract_right_name {n b : String}
    (h : extract_side_and_base n = (b, Side.right)) :
    n = ⟨b.data ++ ['.', 'r']⟩ := by
  unfold extract_side_and_base at h
  split_ifs at h with hl hr
  · exact absurd (congrArg Prod.snd h) (by simp)
  · have hb : dropLast2 n = b := congrArg Prod.fst h
    have hsuf : ['.', 'r'] <:+ n.data := by
      have hr' : (".r").data.isSuffixOf n.data = true := hr
      exact List.isSuffixOf_iff_suffix.mp hr'
    obtain ⟨t, ht⟩ := hsuf
    have hbd : b.data = t := by
      rw [← hb]
      show n.data.take (n.data.length - 2) = t
      rw [← ht]
      have hlen : (t ++ ['.', 'r']).length - 2 = t.length := by simp
      rw [hlen, List.take_left]
    apply String.ext
    show n.data = b.data ++ ['.', 'r']
    rw [hbd, ht]
  · exact absurd (congrArg Prod.snd h) (by simp)

/-- A name ending in neither `.l` nor `.r` extracts as midline with the
name itself as the base. -/
theorem extract_midline {n : String}
    (hl : strEndsWith n ".l" = false) (hr : strEndsWith n ".r" = false) :
    extract_side_and_base n = (n, Side.midline) := by
  unfold extract_side_and_base
  simp [hl, hr]

/-- The bilateral-pair table contains a base name only when the
registry holds both the `.l` and the `.r` member for it. -/
theorem pair_member_names {names : Registry} {base : String}
    (h : is_bilateral_pair names base = true) :
    (∃ rg, (⟨base.data ++ ['.', 'l']⟩, rg) ∈ names) ∧
    (∃ rg, (⟨base.data ++ ['.', 'r']⟩, rg) ∈ names) := by
  unfold is_bilateral_pair at h
  rw [Bool.and_eq_true] at h
  obtain ⟨hL, hR⟩ := h
  constructor
  · obtain ⟨p, hp, he⟩ := List.any_eq_true.mp hL
    refine ⟨p.2, ?_⟩
    have hn := extract_left_name (of_decide_eq_true he)
    rw [← hn]
    exact hp
  · obtain ⟨p, hp, he⟩ := List.any_eq_true.mp hR
    refine ⟨p.2, ?_⟩
    have hn := extract_right_name (of_decide_eq_true he)
    rw [← hn]
    exact hp

/- ============================================================
   Lemmas: the export filter.
   ============================================================ -/

/-- Characterization of the export set: a registry entry survives
`filter_for_export` exactly when it is not the right member of a
complete bilateral pair. -/
theorem mem_filter_iff {pairs : String → Bool} {names : Registry}
    {n rg : String} :
    (n, rg) ∈ (filter_for_export pairs names).1 ↔
      (n, rg) ∈ names ∧
        ¬((extract_side_and_base n).2 = Side.right ∧
          pairs (extract_side_and_base n).1 = true) := by
  induction names with
  | nil => simp [filter_for_export]
  | cons hd tl ih =>
    obtain ⟨hname, hregion⟩ := hd
    by_cases hside : (extract_side_and_base hname).2 = Side.right
    · by_cases hp : pairs (extract_side_and_base hname).1 = true
      · simp only [filter_for_export, hside, hp, if_true, List.mem_cons, ih]
        constructor
        · rintro ⟨hm, hc⟩
          exact ⟨Or.inr hm, hc⟩
        · rintro ⟨hm | hm, hc⟩
          · rw [Prod.mk.injEq] at hm
            obtain ⟨rfl, rfl⟩ := hm
            exact absurd ⟨hside, hp⟩ hc
          · exact ⟨hm, hc⟩
      · have hp' : pairs (extract_side_and_base hname).1 = false :=
          Bool.eq_false_iff.mpr hp
        simp only [filter_for_export, hside, hp', if_true, Bool.false_eq_true,
          if_false, List.mem_cons, ih]
        constructor
        · rintro (hm | ⟨hm, hc⟩)
          · rw [Prod.mk.injEq] at hm
            obtain ⟨rfl, rfl⟩ := hm
            refine ⟨Or.inl rfl, ?_⟩
            rintro ⟨-, hc⟩
            rw [hp'] at hc
            cases hc
          · exact ⟨Or.inr hm, hc⟩
        · rintro ⟨hm | hm, hc⟩
          · exact Or.inl hm
          · exact Or.inr ⟨hm, hc⟩
    · simp only [filter_for_export, hside, if_false, List.mem_cons, ih]
      constructor
      · rintro (hm | ⟨hm, hc⟩)
        · rw [Prod.mk.injEq] at hm
          obtain ⟨rfl, rfl⟩ := hm
          refine ⟨Or.inl rfl, ?_⟩
          rintro ⟨hc, -⟩
          exact hside hc
        · exact ⟨Or.inr hm, hc⟩
      · rintro ⟨hm | hm, hc⟩
        · exact Or.inl hm
        · exact Or.inr ⟨hm, hc⟩

/- ============================================================
   Lemmas: scene resolution.
   ============================================================ -/

/-- Characterization of the resolved set. -/
theorem mem_found_iff {resolve : Scene} {reg : Registry}
    {n rg : String} {o : SceneObj} :
    (n, rg, o) ∈ (find_all_registry_objects resolve reg).1 ↔
      (n, rg) ∈ reg ∧ resolve n = some o := by
  induction reg with
  | nil => simp [find_all_registry_objects]
  | cons hd tl ih =>
    obtain ⟨hname, hregion⟩ := hd
    cases hres : resolve hname with
    | some obj =>
      simp only [find_all_registry_objects, hres, List.mem_cons, ih]
      constructor
      · rintro (hm | ⟨hm, hr⟩)
        · rw [Prod.mk.injEq, Prod.mk.injEq] at hm
          obtain ⟨rfl, rfl, rfl⟩ := hm
          exact ⟨Or.inl rfl, hres⟩
        · exact ⟨Or.inr hm, hr⟩
      · rintro ⟨hm | hm, hr⟩
        · rw [Prod.mk.injEq] at hm
          obtain ⟨rfl, rfl⟩ := hm
          rw [hres] at hr
          obtain rfl := Option.some.inj hr
          exact Or.inl rfl
        · exact Or.inr ⟨hm, hr⟩
    | none =>
      simp only [find_all_registry_objects, hres, List.mem_cons, ih]
      constructor
      · rintro ⟨hm, hr⟩
        exact ⟨Or.inr hm, hr⟩
      · rintro ⟨hm | hm, hr⟩
        · rw [Prod.mk.injEq] at hm
          obtain ⟨rfl, rfl⟩ := hm
          rw [hres] at hr
          cases hr
        · exact ⟨hm, hr⟩

/-- Characterization of the missing list. -/
theorem mem_missing_iff {resolve : Scene} {reg : Registry} {n : String} :
    n ∈ (find_all_registry_objects resolve reg).2 ↔
      (∃ rg, (n, rg) ∈ reg) ∧ resolve n = none := by
  induction reg with
  | nil => simp [find_all_registry_objects]
  | cons hd tl ih =>
    obtain ⟨hname, hregion⟩ := hd
    cases hres : resolve hname with
    | some obj =>
      simp only [find_all_registry_objects, hres, List.mem_cons, ih]
      constructor
      · rintro ⟨⟨rg, hm⟩, hr⟩
        exact ⟨⟨rg, Or.inr hm⟩, hr⟩
      · rintro ⟨⟨rg, hm | hm⟩, hr⟩
        · rw [Prod.mk.injEq] at hm
          obtain ⟨rfl, rfl⟩ := hm
          rw [hres] at hr
          cases hr
        · exact ⟨⟨rg, hm⟩, hr⟩
    | none =>
      simp only [find_all_registry_objects, hres, List.mem_cons, ih]
      constructor
      · rintro (rfl | ⟨⟨rg, hm⟩, hr⟩)
        · exact ⟨⟨hregion, Or.inl rfl⟩, hres⟩
        · exact ⟨⟨rg, Or.inr hm⟩, hr⟩
      · rintro ⟨⟨rg, hm | hm⟩, hr⟩
        · rw [Prod.mk.injEq] at hm
          obtain ⟨rfl, rfl⟩ := hm
          exact Or.inl rfl
        · exact Or.inr ⟨⟨rg, hm⟩, hr⟩

/- ============================================================
   Lemmas: the collision loop always yields an unused id.
   ============================================================ -/

/-- Value of a decimal digit string, inverse of `natDigits`. -/
def digitsVal (l : List Char) : Nat :=
  l.foldl (fun a c => 10 * a + (c.toNat - 48)) 0

/-- Appending one digit multiplies the value by ten and adds it. -/
theorem digitsVal_append_digit (xs : List Char) (c : Char) :
    digitsVal (xs ++ [c]) = 10 * digitsVal xs + (c.toNat - 48) := by
  unfold digitsVal
  rw [List.foldl_append]
  rfl

/-- Digit characters decode to their digit. -/
theorem digitVal_digitChar {d : Nat} (h : d < 10) :
    (digitChar d).toNat - 48 = d := by
  interval_cases d <;> rfl

/-- With enough fuel the digit worker round-trips through its value. -/
theorem digitsVal_natDigits_go :
    ∀ (fuel n : Nat), n ≤ fuel → digitsVal (natDigits_go fuel n) = n := by
  intro fuel
  induction fuel with
  | zero =>
    intro n hn
    obtain rfl : n = 0 := by omega
    show 10 * 0 + ((digitChar 0).toNat - 48) = 0
    rfl
  | succ f ih =>
    intro n hn
    rw [natDigits_go]
    by_cases h : n < 10
    · rw [if_pos h]
      show 10 * 0 + ((digitChar n).toNat - 48) = n
      rw [digitVal_digitChar h]
      omega
    · rw [if_neg h]
      have hdiv : n / 10 < n := Nat.div_lt_self (by omega) (by omega)
      rw [digitsVal_append_digit, ih (n / 10) (by omega),
        digitVal_digitChar (Nat.mod_lt n (by omega))]
      omega

/-- Decimal digits round-trip through their value. -/
theorem digitsVal_natDigits (n : Nat) : digitsVal (natDigits n) = n :=
  digitsVal_natDigits_go n n (Nat.le_refl n)

/-- Decimal printing is injective. -/
theorem natDigits_inj {a b : Nat} (h : natDigits a = natDigits b) : a = b := by
  have := congrArg digitsVal h
  rwa [digitsVal_natDigits, digitsVal_natDigits] at this

/-- Candidate ids with distinct counters are distinct. -/
theorem candidate_inj {base : String} {j k : Nat}
    (h : candidate base j = candidate base k) : j = k := by
  unfold candidate at h
  rw [String.ext_iff] at h
  have h2 : ('_' :: natDigits j) = ('_' :: natDigits k) :=
    List.append_cancel_left h
  exact natDigits_inj (List.cons.inj h2).2

/-- The digit string of a counter is nonempty. -/
theorem natDigits_length_pos (n : Nat) : 0 < (natDigits n).length := by
  unfold natDigits
  cases n with
  | zero => simp [natDigits_go]
  | succ m =>
    rw [natDigits_go]
    by_cases h : m + 1 < 10
    · rw [if_pos h]
      simp
    · rw [if_neg h]
      simp

/-- A suffixed candidate never equals the bare base id. -/
theorem candidate_ne_base (base : String) (k : Nat) : candidate base k ≠ base := by
  intro h
  have hlen := congrArg (fun s => s.data.length) h
  simp only [candidate] at hlen
  have := natDigits_length_pos k
  simp only [List.length_append, List.length_cons] at hlen
  omega

/-- Some candidate among the first `used.length + 1` suffixed ids is
not in `used` (pigeonhole: the candidates are pairwise distinct). -/
theorem exists_free_candidate (used : List String) (base : String) :
    ∃ k, 1 ≤ k ∧ k < used.length + 2 ∧ candidate base k ∉ used := by
  by_contra hall
  push_neg at hall
  have hinj : Function.Injective (fun i => candidate base (i + 1)) := by
    intro i j hij
    have := candidate_inj hij
    omega
  have hnodup : ((List.range (used.length + 1)).map
      (fun i => candidate base (i + 1))).Nodup :=
    List.Nodup.map hinj (List.nodup_range _)
  have hsub : ((List.range (used.length + 1)).map
      (fun i => candidate base (i + 1))).toFinset ⊆ used.toFinset := by
    intro x hx
    rw [List.mem_toFinset] at hx ⊢
    obtain ⟨i, hi, rfl⟩ := List.mem_map.mp hx
    have hi' := List.mem_range.mp hi
    exact hall (i + 1) (by omega) (by omega)
  have h1 := List.toFinset_card_of_nodup hnodup
  have h3 := Finset.card_le_card hsub
  have h4 := List.toFinset_card_le used
  simp only [List.length_map, List.length_range] at h1
  omega

/-- If some candidate in the fuel window is unused, the collision loop
returns an unused id. -/
theorem fresh_go_not_mem {used : List String} {base : String} :
    ∀ fuel c, (∃ k, c ≤ k ∧ k < c + fuel ∧ candidate base k ∉ used) →
      fresh_go used base fuel c ∉ used := by
  intro fuel
  induction fuel with
  | zero =>
    rintro c ⟨k, h1, h2, -⟩
    omega
  | succ f ih =>
    rintro c ⟨k, h1, h2, h3⟩
    unfold fresh_go
    by_cases hc : candidate base c ∈ used
    · rw [if_pos hc]
      apply ih
      refine ⟨k, ?_, by omega, h3⟩
      rcases Nat.eq_or_lt_of_le h1 with rfl | hgt
      · exact absurd hc h3
      · omega
    · rw [if_neg hc]
      exact hc

/-- The id issued by the collision loop of `export_torso` is never one
already issued in the run. -/
theorem fresh_id_not_mem (used : List String) (base : String) :
    fresh_id used base ∉ used := by
  unfold fresh_id
  by_cases h : base ∈ used
  · rw [if_pos h]
    apply fresh_go_not_mem
    obtain ⟨k, h1, h2, h3⟩ := exists_free_candidate used base
    exact ⟨k, h1, by omega, h3⟩
  · rw [if_neg h]
    exact h

/- ============================================================
   Lemmas: the per-structure export loop.
   ============================================================ -/

/-- The record built for a structure keeps the registry name. -/
@[simp] theorem mkRecord_originalName (pairs : String → Bool)
    (used : List String) (name rg : String) (obj : SceneObj) :
    (mkRecord pairs used name rg obj).originalName = name := rfl

/-- The mesh id of a record is the collision-loop id of its normalized
base id against the ids already issued. -/
@[simp] theorem mkRecord_meshId (pairs : String → Bool)
    (used : List String) (name rg : String) (obj : SceneObj) :
    (mkRecord pairs used name rg obj).meshId =
      fresh_id used
        (normalize_mesh_id name (pairs (extract_side_and_base name).1)) := rfl

/-- Every record of the loop stems from a resolved structure and is the
record `mkRecord` builds for it (with the `used_ids` state of its
iteration). -/
theorem loop_record_spec {pairs : String → Bool} :
    ∀ (found : List (String × String × SceneObj)) (used : List String)
      (r : ExportRecord), r ∈ (export_loop pairs used found).1 →
      ∃ used' rg o, (r.originalName, rg, o) ∈ found ∧
        r = mkRecord pairs used' r.originalName rg o := by
  intro found
  induction found with
  | nil =>
    intro used r h
    simp [export_loop] at h
  | cons hd tl ih =>
    obtain ⟨name, rg0, obj⟩ := hd
    intro used r h
    simp only [export_loop, List.mem_cons] at h
    rcases h with rfl | h
    · refine ⟨used, rg0, obj, ?_, ?_⟩
      · rw [mkRecord_originalName]
        exact List.mem_cons_self ..
      · rw [mkRecord_originalName]
    · obtain ⟨used', rg, o, hmem, heq⟩ :=
        ih ((mkRecord pairs used name rg0 obj).meshId :: used) r h
      exact ⟨used', rg, o, List.mem_cons_of_mem _ hmem, heq⟩

/-- Every resolved structure yields a record. -/
theorem loop_exists_record {pairs : String → Bool} :
    ∀ (found : List (String × String × SceneObj)) (used : List String)
      {n rg : String} {o : SceneObj}, (n, rg, o) ∈ found →
      ∃ r ∈ (export_loop pairs used found).1, r.originalName = n := by
  intro found
  induction found with
  | nil =>
    intro used n rg o h
    cases h
  | cons hd tl ih =>
    obtain ⟨name, rg0, obj⟩ := hd
    intro used n rg o h
    rcases List.mem_cons.mp h with heq | hmem
    · rw [Prod.mk.injEq, Prod.mk.injEq] at heq
      obtain ⟨rfl, -, -⟩ := heq
      exact ⟨mkRecord pairs used n rg0 obj, List.mem_cons_self .., rfl⟩
    · obtain ⟨r, hr, hrn⟩ :=
        ih ((mkRecord pairs used name rg0 obj).meshId :: used) hmem
      exact ⟨r, List.mem_cons_of_mem _ hr, hrn⟩

/-- Loop invariant: no issued id repeats an id already in `used_ids`,
and the issued ids are pairwise distinct. -/
theorem loop_ids_nodup {pairs : String → Bool} :
    ∀ (found : List (String × String × SceneObj)) (used : List String),
      (∀ r ∈ (export_loop pairs used found).1, r.meshId ∉ used) ∧
      ((export_loop pairs used found).1.map (fun r => r.meshId)).Nodup := by
  intro found
  induction found with
  | nil =>
    intro used
    constructor
    · intro r h
      cases h
    · simp [export_loop]
  | cons hd tl ih =>
    obtain ⟨name, rg0, obj⟩ := hd
    intro used
    have hfresh : (mkRecord pairs used name rg0 obj).meshId ∉ used := by
      rw [mkRecord_meshId]
      exact fresh_id_not_mem used _
    obtain ⟨ih1, ih2⟩ := ih ((mkRecord pairs used name rg0 obj).meshId :: used)
    constructor
    · intro r h
      rcases List.mem_cons.mp h with rfl | hmem
      · exact hfresh
      · intro hu
        exact ih1 r hmem (List.mem_cons_of_mem _ hu)
    · show ((mkRecord pairs used name rg0 obj).meshId ::
        ((export_loop pairs ((mkRecord pairs used name rg0 obj).meshId :: used) tl).1.map
          (fun r => r.meshId))).Nodup
      rw [List.nodup_cons]
      refine ⟨?_, ih2⟩
      intro hmem
      obtain ⟨r, hr, hre⟩ := List.mem_map.mp hmem
      exact ih1 r hr (hre ▸ List.mem_cons_self ..)

/-- The bilateral flag of a record is pair membership of its base. -/
@[simp] theorem mkRecord_bilateral (pairs : String → Bool)
    (used : List String) (name rg : String) (obj : SceneObj) :
    (mkRecord pairs used name rg obj).bilateral =
      pairs (extract_side_and_base name).1 := rfl

/-- The center of a record is the converted snapshot center. -/
@[simp] theorem mkRecord_center (pairs : String → Bool)
    (used : List String) (name rg : String) (obj : SceneObj) :
    (mkRecord pairs used name rg obj).center =
      blender_to_threejs obj.snapCenter := rfl

/-- The mirrored center is present exactly for bilateral records and is
the X-negated center. -/
@[simp] theorem mkRecord_mirroredCenter (pairs : String → Bool)
    (used : List String) (name rg : String) (obj : SceneObj) :
    (mkRecord pairs used name rg obj).mirroredCenter =
      (if pairs (extract_side_and_base name).1 then
        some (mirror_center_x (blender_to_threejs obj.snapCenter))
      else none) := rfl

/-- The side stored for the statistics is the extracted side. -/
@[simp] theorem mkRecord_side (pairs : String → Bool)
    (used : List String) (name rg : String) (obj : SceneObj) :
    (mkRecord pairs used name rg obj).side =
      (extract_side_and_base name).2 := rfl

/-- Which processing function a record went through. -/
@[simp] theorem mkRecord_proc (pairs : String → Bool)
    (used : List String) (name rg : String) (obj : SceneObj) :
    (mkRecord pairs used name rg obj).proc =
      (if needs_location_sum_fix name then FixKind.locationSum
       else FixKind.standard) := rfl

/- ============================================================
   Lemmas: run statistics.
   ============================================================ -/

/-- A record counted as an orphan: one-sided and not bilateral. -/
def isOrphanRecord (r : ExportRecord) : Bool :=
  !r.bilateral && decide (r.side ≠ Side.midline)

/-- The orphan statistic counts exactly the non-bilateral, non-midline
records, regardless of the accumulator the fold starts from. -/
theorem runStats_orphan_eq (records : List ExportRecord) :
    (runStats records).orphan = records.countP isOrphanRecord := by
  suffices h : ∀ (init : RunStats),
      (records.foldl stat_step init).orphan =
        init.orphan + records.countP isOrphanRecord by
    have := h ⟨0, 0, 0⟩
    simpa [runStats] using this
  induction records with
  | nil => intro init; simp [List.countP_nil]
  | cons r tl ih =>
    intro init
    rw [List.foldl_cons, ih, List.countP_cons]
    unfold stat_step isOrphanRecord
    by_cases hb : r.bilateral
    · simp [hb]
    · by_cases hm : r.side = Side.midline
      · simp [hb, hm]
      · simp only [Bool.not_eq_true] at hb
        simp [hb, hm]
        omega

/- ============================================================
   Lemmas: metadata centers come from the snapshot only.
   ============================================================ -/

/-- Records depend on a scene object only through its pre-mutation
snapshot center. -/
theorem mkRecord_congr_snap {pairs : String → Bool} {used : List String}
    {name rg : String} {o o' : SceneObj}
    (h : o.snapCenter = o'.snapCenter) :
    mkRecord pairs used name rg o = mkRecord pairs used name rg o' := by
  unfold mkRecord
  rw [h]

/-- Two resolvers that agree on which names resolve and on the captured
snapshot centers — but may disagree on every transform seen during
processing — produce the same records and the same missing list. -/
theorem find_loop_congr {pairs : String → Bool} {resolve resolve' : Scene}
    (h : ∀ n, Option.map SceneObj.snapCenter (resolve n) =
      Option.map SceneObj.snapCenter (resolve' n)) :
    ∀ (reg : Registry) (used : List String),
      (export_loop pairs used (find_all_registry_objects resolve reg).1).1 =
        (export_loop pairs used (find_all_registry_objects resolve' reg).1).1 ∧
      (find_all_registry_objects resolve reg).2 =
        (find_all_registry_objects resolve' reg).2 := by
  intro reg
  induction reg with
  | nil =>
    intro used
    exact ⟨rfl, rfl⟩
  | cons hd tl ih =>
    obtain ⟨name, rg0⟩ := hd
    intro used
    have hn := h name
    cases hres : resolve name with
    | none =>
      cases hres' : resolve' name with
      | none =>
        simp only [find_all_registry_objects, hres, hres']
        refine ⟨(ih used).1, ?_⟩
        rw [(ih used).2]
      | some o' =>
        rw [hres, hres'] at hn
        cases hn
    | some o =>
      cases hres' : resolve' name with
      | none =>
        rw [hres, hres'] at hn
        cases hn
      | some o' =>
        have hsnap : o.snapCenter = o'.snapCenter := by
          rw [hres, hres'] at hn
          simpa using hn
        have hrec : mkRecord pairs used name rg0 o =
            mkRecord pairs used name rg0 o' := mkRecord_congr_snap hsnap
        simp only [find_all_registry_objects, hres, hres', export_loop]
        constructor
        · rw [hrec, (ih ((mkRecord pairs used name rg0 o').meshId :: used)).1]
        · exact (ih used).2

/- ============================================================
   Lemmas: the corruption threshold.
   ============================================================ -/

/-- Squared distances are nonnegative. -/
theorem dist2_nonneg (a b : Vec3) : 0 ≤ dist2 a b := by
  unfold dist2
  positivity

/-- The boolean corruption test agrees with the source's comparison of
the Euclidean translation distance against the 1 mm tolerance. -/
theorem needs_matrix_fix_iff (cur pre : Mat4) :
    needs_matrix_fix cur pre = true ↔
      (1 / 1000 : ℝ) < Real.sqrt ((dist2 cur.trans pre.trans : ℚ) : ℝ) := by
  unfold needs_matrix_fix
  rw [decide_eq_true_iff,
    Real.lt_sqrt (by norm_num : (0 : ℝ) ≤ 1 / 1000)]
  rw [show ((1 : ℝ) / 1000) ^ 2 = (((1 / 1000 : ℚ) ^ 2 : ℚ) : ℝ) from by
    push_cast
    ring]
  rw [Rat.cast_lt]

/-- The records of a run are the loop's records over the resolved
filtered registry. -/
@[simp] theorem export_torso_records (names : Registry) (resolve : Scene) :
    (export_torso names resolve).records =
      (export_loop (is_bilateral_pair names) []
        (find_all_registry_objects resolve
          (filter_for_export (is_bilateral_pair names) names).1).1).1 := rfl

/-- The missing list of a run comes from resolving the filtered
registry. -/
@[simp] theorem export_torso_missing (names : Registry) (resolve : Scene) :
    (export_torso names resolve).missing =
      (find_all_registry_objects resolve
        (filter_for_export (is_bilateral_pair names) names).1).2 := rfl

/-- The statistics of a run are the fold over its records. -/
@[simp] theorem export_torso_stats (names : Registry) (resolve : Scene) :
    (export_torso names resolve).stats =
      runStats (export_torso names resolve).records := rfl

/-- A fixed scene object for concrete runs: snapshot center `(1, 2, 3)`
(Blender Z-up). -/
def sampleObj : SceneObj := ⟨(1, 2, 3), (1, 2, 3), (1, 2, 3), (0, 0, 0)⟩

/- ============================================================
   Claims.
   ============================================================ -/

/-- C10: in the V11 exporter the broken-parent-chain pattern list is
empty, so `needs_location_sum_fix` returns false for every name, the
location-sum reconstruction path is unreachable, and every resolved
structure is processed by `process_standard_object`. -/
theorem C10_no_location_sum_path :
    BROKEN_PARENT_CHAIN_PATTERNS = [] ∧
    (∀ name : String, needs_location_sum_fix name = false) ∧
    (∀ (names : Registry) (resolve : Scene) (r : ExportRecord),
      r ∈ (export_torso names resolve).records → r.proc = FixKind.standard) := by
  have hfix : ∀ name : String, needs_location_sum_fix name = false := by
    intro name
    rfl
  refine ⟨rfl, hfix, ?_⟩
  intro names resolve r hr
  rw [export_torso_records] at hr
  obtain ⟨used', rg, o, -, heq⟩ := loop_record_spec _ _ r hr
  rw [heq, mkRecord_proc, hfix]
  rfl

/-- The record produced for a lone midline structure `sacrum` resolved
against `sampleObj`. -/
def sacrumRec : ExportRecord :=
  mkRecord (is_bilateral_pair [("sacrum", "pelvis")]) [] "sacrum" "pelvis"
    sampleObj

/-- Witness for C10: a concrete run containing `sacrum` produces
exactly that record and it went through the standard path. -/
theorem C10_witness :
    (export_torso [("sacrum", "pelvis")] (fun _ => some sampleObj)).records =
      [sacrumRec] ∧
    sacrumRec.proc = FixKind.standard := by
  have h : (export_torso [("sacrum", "pelvis")] (fun _ => some sampleObj)).records =
      [sacrumRec] := rfl
  refine ⟨h, ?_⟩
  refine C10_no_location_sum_path.2.2 [("sacrum", "pelvis")]
    (fun _ => some sampleObj) sacrumRec ?_
  rw [h]
  exact List.mem_cons_self ..

/-- C5: within one run no two export records share a `meshId`; the
collision loop suffixes `_1`, `_2`, ... against the per-run id set, and
the second of two names normalizing to the same id receives `_1`. -/
theorem C5_meshId_unique :
    (∀ (names : Registry) (resolve : Scene),
      ((export_torso names resolve).records.map (fun r => r.meshId)).Nodup) ∧
    ((export_torso [("Psoas Major", "pelvis"), ("psoas_major", "pelvis")]
        (fun _ => some sampleObj)).records.map (fun r => r.meshId)) =
      ["psoas_major", "psoas_major_1"] := by
  constructor
  · intro names resolve
    rw [export_torso_records]
    exact (loop_ids_nodup _ _).2
  · decide

/-- Counterexample to C6 as stated: the claim says parentheses are
replaced with a single separator character, but `normalize_mesh_id`
deletes them.  On `"flexor(a)b"` the code yields `"flexorab"` while the
claimed behaviour (`normalizeId_spec`, the spec's words) yields
`"flexor_a_b"`. -/
theorem C6_counterexample :
    normalize_mesh_id "flexor(a)b" false = "flexorab" ∧
    normalizeId_spec "flexor(a)b" false = "flexor_a_b" ∧
    decide (normalize_mesh_id "flexor(a)b" false =
      normalizeId_spec "flexor(a)b" false) = false := by
  refine ⟨by decide, by decide, by decide⟩

/-- C6 (amended): `normalize_mesh_id` lowercases, strips the side
suffix when bilateral and otherwise converts it to a trailing `_l` /
`_r` tag, replaces whitespace/hyphens/periods by the separator,
deletes parentheses, collapses repeated separators and strips
leading/trailing separators — stated as agreement with the
amended-worded allocator on every input, plus concrete runs of each
path (including the parenthesis-deleting one). -/
theorem C6_normalize_id_amended :
    (∀ (name : String) (b : Bool),
      normalize_mesh_id name b = normalizeId_amended name b) ∧
    normalize_mesh_id "Quadratus Lumborum.l" true = "quadratus_lumborum" ∧
    normalize_mesh_id "Quadratus Lumborum.l" false = "quadratus_lumborum_l" ∧
    normalize_mesh_id "Rectus-Abdominis  (left).r" false =
      "rectus_abdominis_left_r" ∧
    normalize_mesh_id "flexor(a)b" false = "flexorab" ∧
    normalize_mesh_id "Linea Alba" false = "linea_alba" := by
  refine ⟨?_, by decide, by decide, by decide, by decide, by decide⟩
  intro name b
  cases b
  all_goals
    unfold normalize_mesh_id normalizeId_amended
    by_cases hl : strEndsWith (toLowerS name) ".l" <;>
      by_cases hr : strEndsWith (toLowerS name) ".r" <;>
        simp [hl, hr]

/-- C9: `extract_side_and_base` recognizes only the exact lowercase
suffixes `.l` / `.r`; any other side spelling (`.L`, `_l`, ` left`)
yields midline with the name unchanged, such names can only enter the
bilateral-pair table through exact-suffix members, and midline names
are always kept by the export filter (never deduplicated). -/
theorem C9_exact_suffix_only :
    (∀ n : String, strEndsWith n ".l" = false → strEndsWith n ".r" = false →
      extract_side_and_base n = (n, Side.midline)) ∧
    extract_side_and_base "erector spinae.L" =
      ("erector spinae.L", Side.midline) ∧
    extract_side_and_base "erector spinae_l" =
      ("erector spinae_l", Side.midline) ∧
    extract_side_and_base "erector spinae left" =
      ("erector spinae left", Side.midline) ∧
    (∀ (names : Registry) (base : String),
      is_bilateral_pair names base = true →
      (∃ rg, (⟨base.data ++ ['.', 'l']⟩, rg) ∈ names) ∧
      (∃ rg, (⟨base.data ++ ['.', 'r']⟩, rg) ∈ names)) ∧
    (∀ (names : Registry) (pairs : String → Bool) (n rg : String),
      (n, rg) ∈ names → (extract_side_and_base n).2 = Side.midline →
      (n, rg) ∈ (filter_for_export pairs names).1) := by
  refine ⟨?_, by decide, by decide, by decide, ?_, ?_⟩
  · intro n hl hr
    exact extract_midline hl hr
  · intro names base h
    exact pair_member_names h
  · intro names pairs n rg hmem hmid
    refine mem_filter_iff.mpr ⟨hmem, ?_⟩
    rintro ⟨hside, -⟩
    rw [hmid] at hside
    cases hside

/-- A registry holding one exact bilateral pair `ext.l` / `ext.r`. -/
def extReg : Registry := [("ext.l", "x"), ("ext.r", "x")]

/-- Witness for C9: a name with a `_l` spelling is midline, pair
membership forces exact-suffix members, and a midline entry survives
the filter. -/
theorem C9_witness :
    extract_side_and_base "psoas major_l" = ("psoas major_l", Side.midline) ∧
    ((∃ rg, ((⟨("ext" : String).data ++ ['.', 'l']⟩ : String), rg) ∈ extReg) ∧
     (∃ rg, ((⟨("ext" : String).data ++ ['.', 'r']⟩ : String), rg) ∈ extReg)) ∧
    ("linea alba", "abdomen") ∈
      (filter_for_export (fun _ => true) [("linea alba", "abdomen")]).1 :=
  ⟨C9_exact_suffix_only.1 "psoas major_l" (by decide) (by decide),
   C9_exact_suffix_only.2.2.2.2.1 extReg "ext" (by decide),
   C9_exact_suffix_only.2.2.2.2.2 [("linea alba", "abdomen")] (fun _ => true)
     "linea alba" "abdomen" (by decide) (by decide)⟩

/-- Counterexample to C4 as stated: `"retinaculum tendon muscle"`
contains the tendon keyword `tendon` and the muscle keyword `muscle`,
yet classifies as `fascia`, not `tendon`, because the V11 cascade
checks fascia keywords (here `retinaculum`) before tendon keywords. -/
theorem C4_counterexample :
    containsAny tendon_keywords (toLowerS "retinaculum tendon muscle") = true ∧
    containsAny muscle_keywords (toLowerS "retinaculum tendon muscle") = true ∧
    get_anatomical_type "retinaculum tendon muscle" = "fascia" ∧
    decide (get_anatomical_type "retinaculum tendon muscle" = "tendon") =
      false := by
  refine ⟨by decide, by decide, by decide, by decide⟩

/-- C4 (amended): the V11 cascade checks fascia, tendon/sheath and
capsule keywords before muscle keywords; a name containing a
tendon-sheath keyword is never classified `muscle`, and is classified
`tendon` provided no fascia keyword also matches (fascia is checked
first); the function is total with catch-all `"other"` when no keyword
of any class matches. -/
theorem C4_classifier_order (name : String) :
    (containsAny tendon_keywords (toLowerS name) = true →
      containsAny fascia_keywords (toLowerS name) = false →
      get_anatomical_type name = "tendon") ∧
    (containsAny tendon_keywords (toLowerS name) = true →
      decide (get_anatomical_type name = "muscle") = false) ∧
    get_anatomical_type name ∈
      ["fascia", "tendon", "capsule", "muscle", "bone", "ligament",
        "cartilage", "membrane", "bursa", "other"] ∧
    (containsAny fascia_keywords (toLowerS name) = false →
      containsAny tendon_keywords (toLowerS name) = false →
      (containsSub "articular capsule" (toLowerS name) ||
        containsSub "capsule" (toLowerS name)) = false →
      containsAny muscle_keywords (toLowerS name) = false →
      containsAny bone_keywords (toLowerS name) = false →
      containsAny ligament_keywords (toLowerS name) = false →
      containsAny cartilage_keywords (toLowerS name) = false →
      containsSub "membrane" (toLowerS name) = false →
      containsAny ["bursa", "bursae"] (toLowerS name) = false →
      containsAny ["frenula capsulae", "capsule of"] (toLowerS name) = false →
      get_anatomical_type name = "other") := by
  refine ⟨?_, ?_, ?_, ?_⟩
  · intro ht hf
    unfold get_anatomical_type
    simp [hf, ht]
  · intro ht
    unfold get_anatomical_type
    by_cases hf : containsAny fascia_keywords (toLowerS name)
    · simp [hf]
    · simp [hf, ht]
  · unfold get_anatomical_type
    dsimp only
    split_ifs <;> simp
  · intro h1 h2 h3 h4 h5 h6 h7 h8 h9 h10
    unfold get_anatomical_type
    simp [h1, h2, h3, h4, h5, h6, h7, h8, h9, h10]

/-- Witness for the amended C4 at the spec's example name. -/
theorem C4_witness :
    containsAny tendon_keywords
      (toLowerS "flexor digitorum tendon sheath") = true ∧
    containsAny fascia_keywords
      (toLowerS "flexor digitorum tendon sheath") = false ∧
    get_anatomical_type "flexor digitorum tendon sheath" = "tendon" ∧
    decide (get_anatomical_type "flexor digitorum tendon sheath" =
      "muscle") = false :=
  ⟨by decide, by decide,
   (C4_classifier_order "flexor digitorum tendon sheath").1 (by decide)
     (by decide),
   (C4_classifier_order "flexor digitorum tendon sheath").2.1 (by decide)⟩

/-- C2: `process_standard_object` takes the corrective path (parent
cleared without keeping transform, world matrix set to the snapshot)
exactly when the Euclidean distance between the current and snapshot
translations strictly exceeds the 1 mm tolerance (0.001 scene units); a
delta exactly equal to the tolerance takes the standard
unparent-with-keep-transform path, which preserves the current world
matrix. -/
theorem C2_tolerance_boundary (p : Option String) (cur snap : Mat4) :
    ((process_standard_object p cur snap).path = FixPath.corrective ↔
      (1 / 1000 : ℝ) < Real.sqrt ((dist2 cur.trans snap.trans : ℚ) : ℝ)) ∧
    (Real.sqrt ((dist2 cur.trans snap.trans : ℚ) : ℝ) = 1 / 1000 →
      process_standard_object p cur snap =
        { path := FixPath.standard, parent := none, world := cur }) ∧
    ((process_standard_object p cur snap).path = FixPath.corrective →
      process_standard_object p cur snap =
        { path := FixPath.corrective, parent := none, world := snap }) ∧
    ((process_standard_object p cur snap).path = FixPath.standard →
      process_standard_object p cur snap =
        { path := FixPath.standard, parent := none, world := cur }) := by
  unfold process_standard_object
  by_cases h : needs_matrix_fix cur snap
  · rw [if_pos h]
    refine ⟨?_, ?_, fun _ => rfl, ?_⟩
    · exact ⟨fun _ => (needs_matrix_fix_iff cur snap).mp h, fun _ => rfl⟩
    · intro heq
      have hlt := (needs_matrix_fix_iff cur snap).mp h
      rw [heq] at hlt
      exact absurd hlt (lt_irrefl _)
    · intro habs
      cases habs
  · rw [if_neg h]
    refine ⟨?_, fun _ => rfl, ?_, fun _ => rfl⟩
    · constructor
      · intro habs
        cases habs
      · intro hlt
        exact absurd ((needs_matrix_fix_iff cur snap).mpr hlt) h
    · intro habs
      cases habs

/-- Identity-like linear block for concrete matrices. -/
def lin0 : Vec3 × Vec3 × Vec3 := ((1, 0, 0), (0, 1, 0), (0, 0, 1))

/-- Witness for C2 at the exact tolerance boundary: a translation delta
of exactly 0.001 keeps the standard path and the current matrix. -/
theorem C2_witness :
    Real.sqrt ((dist2 (1 / 1000, 0, 0) (0, 0, 0) : ℚ) : ℝ) = 1 / 1000 ∧
    process_standard_object none ⟨(1 / 1000, 0, 0), lin0⟩ ⟨(0, 0, 0), lin0⟩ =
      { path := FixPath.standard, parent := none,
        world := ⟨(1 / 1000, 0, 0), lin0⟩ } := by
  have hd : ((dist2 (1 / 1000, 0, 0) (0, 0, 0) : ℚ) : ℝ) = (1 / 1000 : ℝ) ^ 2 := by
    norm_num [dist2]
  have hs : Real.sqrt ((dist2 (1 / 1000, 0, 0) (0, 0, 0) : ℚ) : ℝ) = 1 / 1000 := by
    rw [hd, Real.sqrt_sq (by norm_num : (0 : ℝ) ≤ 1 / 1000)]
  exact ⟨hs,
    (C2_tolerance_boundary none ⟨(1 / 1000, 0, 0), lin0⟩ ⟨(0, 0, 0), lin0⟩).2.1 hs⟩

/-- Every record of a run stems from a filtered registry entry whose
name resolved, and is the `mkRecord` of that resolution. -/
theorem record_origin {names : Registry} {resolve : Scene}
    {r : ExportRecord} (hr : r ∈ (export_torso names resolve).records) :
    ∃ used' rg o,
      (r.originalName, rg) ∈
        (filter_for_export (is_bilateral_pair names) names).1 ∧
      resolve r.originalName = some o ∧
      r = mkRecord (is_bilateral_pair names) used' r.originalName rg o := by
  rw [export_torso_records] at hr
  obtain ⟨used', rg, o, hmem, heq⟩ := loop_record_spec _ _ r hr
  obtain ⟨hf, hres⟩ := mem_found_iff.mp hmem
  exact ⟨used', rg, o, hf, hres, heq⟩

/-- A filtered entry whose name resolves yields a record. -/
theorem record_exists {names : Registry} {resolve : Scene}
    {n rg : String} {o : SceneObj}
    (hf : (n, rg) ∈ (filter_for_export (is_bilateral_pair names) names).1)
    (hres : resolve n = some o) :
    ∃ r ∈ (export_torso names resolve).records, r.originalName = n := by
  rw [export_torso_records]
  exact loop_exists_record _ _ (mem_found_iff.mpr ⟨hf, hres⟩)

/-- For a complete bilateral pair the base is in the pair table, the
left member survives the filter and the right member never does. -/
theorem pair_filter_facts {names : Registry} {L R b rgl rgr : String}
    (hL : (L, rgl) ∈ names) (hR : (R, rgr) ∈ names)
    (heL : extract_side_and_base L = (b, Side.left))
    (heR : extract_side_and_base R = (b, Side.right)) :
    is_bilateral_pair names b = true ∧
    (L, rgl) ∈ (filter_for_export (is_bilateral_pair names) names).1 ∧
    ∀ rg, (R, rg) ∉ (filter_for_export (is_bilateral_pair names) names).1 := by
  have hpair : is_bilateral_pair names b = true := by
    unfold is_bilateral_pair
    rw [Bool.and_eq_true]
    exact ⟨List.any_eq_true.mpr ⟨(L, rgl), hL, decide_eq_true heL⟩,
      List.any_eq_true.mpr ⟨(R, rgr), hR, decide_eq_true heR⟩⟩
  refine ⟨hpair, ?_, ?_⟩
  · refine mem_filter_iff.mpr ⟨hL, ?_⟩
    rintro ⟨hside, -⟩
    rw [heL] at hside
    cases hside
  · intro rg hmem
    obtain ⟨-, hc⟩ := mem_filter_iff.mp hmem
    refine hc ⟨?_, ?_⟩
    · rw [heR]
    · have hb : (extract_side_and_base R).1 = b := by rw [heR]
      rw [hb]
      exact hpair

/-- C1: for a complete bilateral pair exactly the left member survives
`filter_for_export` into the export set; its record (whenever its scene
node resolves, a record for it exists) is marked bilateral and carries
`mirroredCenter` equal to its center with the X component negated and
Y, Z unchanged; the right member is never exported. -/
theorem C1_bilateral_pair_export (names : Registry) (resolve : Scene)
    (L R b rgl rgr : String)
    (hL : (L, rgl) ∈ names) (hR : (R, rgr) ∈ names)
    (heL : extract_side_and_base L = (b, Side.left))
    (heR : extract_side_and_base R = (b, Side.right)) :
    (L, rgl) ∈ (filter_for_export (is_bilateral_pair names) names).1 ∧
    (∀ rg, (R, rg) ∉ (filter_for_export (is_bilateral_pair names) names).1) ∧
    (∀ o, resolve L = some o →
      ∃ r ∈ (export_torso names resolve).records, r.originalName = L) ∧
    (∀ r ∈ (export_torso names resolve).records, r.originalName = L →
      r.bilateral = true ∧
      r.mirroredCenter = some (-(r.center.1), r.center.2.1, r.center.2.2)) ∧
    (∀ r ∈ (export_torso names resolve).records,
      decide (r.originalName = R) = false) := by
  obtain ⟨hpair, hLmem, hRnot⟩ := pair_filter_facts hL hR heL heR
  have hLbase : (extract_side_and_base L).1 = b := by rw [heL]
  refine ⟨hLmem, hRnot, ?_, ?_, ?_⟩
  · intro o ho
    exact record_exists hLmem ho
  · intro r hr hname
    obtain ⟨used', rg, o, -, -, heq⟩ := record_origin hr
    constructor
    · rw [heq, mkRecord_bilateral, hname, hLbase]
      exact hpair
    · rw [heq, mkRecord_mirroredCenter, mkRecord_center, hname, hLbase,
        hpair]
      simp [mirror_center_x]
  · intro r hr
    apply decide_eq_false
    intro hname
    obtain ⟨used', rg, o, hf, -, -⟩ := record_origin hr
    rw [hname] at hf
    exact hRnot rg hf

/-- A registry holding one complete bilateral pair. -/
def pairReg : Registry :=
  [("gluteus maximus.l", "pelvis"), ("gluteus maximus.r", "pelvis")]

/-- The record the pipeline builds for the left gluteus maximus in
`pairReg`. -/
def gmRec : ExportRecord :=
  mkRecord (is_bilateral_pair pairReg) [] "gluteus maximus.l" "pelvis"
    sampleObj

/-- Witness for C1 on `pairReg`: the left record exists, is bilateral
and mirrors its center. -/
theorem C1_witness :
    gmRec ∈ (export_torso pairReg (fun _ => some sampleObj)).records ∧
    gmRec.bilateral = true ∧
    gmRec.mirroredCenter =
      some (-(gmRec.center.1), gmRec.center.2.1, gmRec.center.2.2) := by
  have hrec : (export_torso pairReg (fun _ => some sampleObj)).records =
      [gmRec] := rfl
  have hmem : gmRec ∈ (export_torso pairReg (fun _ => some sampleObj)).records := by
    rw [hrec]
    exact List.mem_cons_self ..
  have h := (C1_bilateral_pair_export pairReg (fun _ => some sampleObj)
    "gluteus maximus.l" "gluteus maximus.r" "gluteus maximus" "pelvis"
    "pelvis" (by decide) (by decide) (by decide) (by decide)).2.2.2.1
    gmRec hmem rfl
  exact ⟨hmem, h.1, h.2⟩

/-- C7: an unpaired left or right registry entry is never dropped: it
survives the filter, its record (which exists whenever its node
resolves) has `bilateral = false` and no `mirroredCenter`, and the run
statistics count it — like every non-bilateral, one-sided record — as
an orphan. -/
theorem C7_orphan_exported (names : Registry) (resolve : Scene)
    (N rg b : String) (s : Side)
    (hmem : (N, rg) ∈ names)
    (he : extract_side_and_base N = (b, s))
    (hs : s ≠ Side.midline)
    (hnp : is_bilateral_pair names b = false) :
    (N, rg) ∈ (filter_for_export (is_bilateral_pair names) names).1 ∧
    (∀ o, resolve N = some o →
      ∃ r ∈ (export_torso names resolve).records, r.originalName = N) ∧
    (∀ r ∈ (export_torso names resolve).records, r.originalName = N →
      r.bilateral = false ∧ r.mirroredCenter = none ∧
      isOrphanRecord r = true) ∧
    (export_torso names resolve).stats.orphan =
      (export_torso names resolve).records.countP isOrphanRecord := by
  have hbase : (extract_side_and_base N).1 = b := by rw [he]
  have hside : (extract_side_and_base N).2 = s := by rw [he]
  have hNmem : (N, rg) ∈ (filter_for_export (is_bilateral_pair names) names).1 := by
    refine mem_filter_iff.mpr ⟨hmem, ?_⟩
    rintro ⟨-, hp⟩
    rw [hbase, hnp] at hp
    cases hp
  refine ⟨hNmem, ?_, ?_, ?_⟩
  · intro o ho
    exact record_exists hNmem ho
  · intro r hr hname
    obtain ⟨used', rg0, o, -, -, heq⟩ := record_origin hr
    have hbil : r.bilateral = false := by
      rw [heq, mkRecord_bilateral, hname, hbase]
      exact hnp
    refine ⟨hbil, ?_, ?_⟩
    · rw [heq, mkRecord_mirroredCenter, hname, hbase, hnp]
      simp
    · unfold isOrphanRecord
      rw [hbil, heq, mkRecord_side, hname, hside]
      simp [hs]
  · rw [export_torso_stats, runStats_orphan_eq]

/-- A registry holding a left structure without a right counterpart. -/
def orphanReg : Registry := [("trapezius.l", "thorax")]

/-- The record the pipeline builds for the orphan in `orphanReg`. -/
def trapRec : ExportRecord :=
  mkRecord (is_bilateral_pair orphanReg) [] "trapezius.l" "thorax"
    sampleObj

/-- Witness for C7 on `orphanReg`: the orphan is exported
non-bilateral, without mirrored center, and counted as an orphan. -/
theorem C7_witness :
    trapRec ∈ (export_torso orphanReg (fun _ => some sampleObj)).records ∧
    trapRec.bilateral = false ∧ trapRec.mirroredCenter = none ∧
    isOrphanRecord trapRec = true ∧
    (export_torso orphanReg (fun _ => some sampleObj)).stats.orphan =
      (export_torso orphanReg (fun _ => some sampleObj)).records.countP
        isOrphanRecord := by
  have hrec : (export_torso orphanReg (fun _ => some sampleObj)).records =
      [trapRec] := rfl
  have hmem : trapRec ∈ (export_torso orphanReg (fun _ => some sampleObj)).records := by
    rw [hrec]
    exact List.mem_cons_self ..
  have h := C7_orphan_exported orphanReg (fun _ => some sampleObj)
    "trapezius.l" "thorax" "trapezius" Side.left (by decide) (by decide)
    (by decide) (by decide)
  have h3 := h.2.2.1 trapRec hmem rfl
  exact ⟨hmem, h3.1, h3.2.1, h3.2.2, h.2.2.2⟩

/-- C8: bilateral deduplication happens on the registry before any
scene resolution: the right member of a complete pair is removed
unconditionally, so when the left member has no scene node neither side
is exported — even if the right member's node exists — and the pair
contributes only the left name to the missing list. -/
theorem C8_dedup_before_resolution (names : Registry) (resolve : Scene)
    (L R b rgl rgr : String)
    (hL : (L, rgl) ∈ names) (hR : (R, rgr) ∈ names)
    (heL : extract_side_and_base L = (b, Side.left))
    (heR : extract_side_and_base R = (b, Side.right))
    (hmiss : resolve L = none) :
    L ∈ (export_torso names resolve).missing ∧
    (∀ rg, (R, rg) ∉ (filter_for_export (is_bilateral_pair names) names).1) ∧
    decide (R ∈ (export_torso names resolve).missing) = false ∧
    (∀ r ∈ (export_torso names resolve).records,
      decide (r.originalName = L) = false ∧
      decide (r.originalName = R) = false) := by
  obtain ⟨hpair, hLmem, hRnot⟩ := pair_filter_facts hL hR heL heR
  refine ⟨?_, hRnot, ?_, ?_⟩
  · rw [export_torso_missing]
    exact mem_missing_iff.mpr ⟨⟨rgl, hLmem⟩, hmiss⟩
  · apply decide_eq_false
    intro hmemR
    rw [export_torso_missing] at hmemR
    obtain ⟨⟨rg, hf⟩, -⟩ := mem_missing_iff.mp hmemR
    exact hRnot rg hf
  · intro r hr
    constructor
    · apply decide_eq_false
      intro hname
      obtain ⟨used', rg0, o, -, hres, -⟩ := record_origin hr
      rw [hname, hmiss] at hres
      cases hres
    · apply decide_eq_false
      intro hname
      obtain ⟨used', rg0, o, hf, -, -⟩ := record_origin hr
      rw [hname] at hf
      exact hRnot rg0 hf

/-- A scene resolving only the right member of the pair. -/
def resolveRightOnly : Scene :=
  fun n => if n = "gluteus maximus.r" then some sampleObj else none

/-- Witness for C8 on `pairReg` with only the right node in the scene:
the left lands in missing and the right does not. -/
theorem C8_witness :
    "gluteus maximus.l" ∈
      (export_torso pairReg resolveRightOnly).missing ∧
    decide ("gluteus maximus.r" ∈
      (export_torso pairReg resolveRightOnly).missing) = false := by
  have h := C8_dedup_before_resolution pairReg resolveRightOnly
    "gluteus maximus.l" "gluteus maximus.r" "gluteus maximus" "pelvis"
    "pelvis" (by decide) (by decide) (by decide) (by decide) rfl
  exact ⟨h.1, h.2.2.1⟩

/-- C3: every exported record's center is the Y-up conversion of the
snapshot geometry center captured before any mutation, and the records
are unchanged under any alteration of the transforms seen during
processing (unparenting, matrix fixes, baking, recentering), as long as
the pre-mutation snapshots are the same. -/
theorem C3_center_from_snapshot (names : Registry) (resolve : Scene) :
    (∀ r ∈ (export_torso names resolve).records,
      ∃ o, resolve r.originalName = some o ∧
        r.center = blender_to_threejs o.snapCenter) ∧
    (∀ resolve' : Scene,
      (∀ n, Option.map SceneObj.snapCenter (resolve n) =
        Option.map SceneObj.snapCenter (resolve' n)) →
      (export_torso names resolve').records =
        (export_torso names resolve).records) := by
  constructor
  · intro r hr
    obtain ⟨used', rg, o, -, hres, heq⟩ := record_origin hr
    refine ⟨o, hres, ?_⟩
    rw [heq, mkRecord_center]
  · intro resolve' hsnap
    rw [export_torso_records, export_torso_records]
    exact ((find_loop_congr hsnap _ _).1).symm

/-- A scene object with the same snapshot as `sampleObj` but mutated
processing-time transform and baked location. -/
def mutatedObj : SceneObj := ⟨(1, 2, 3), (1, 2, 3), (9, 9, 9), (5, 5, 5)⟩

/-- Witness for C3: mutating processing-time transforms leaves the
records of a concrete run unchanged. -/
theorem C3_witness :
    (export_torso [("sacrum", "pelvis")] (fun _ => some mutatedObj)).records =
      (export_torso [("sacrum", "pelvis")] (fun _ => some sampleObj)).records :=
  (C3_center_from_snapshot [("sacrum", "pelvis")]
    (fun _ => some sampleObj)).2 (fun _ => some mutatedObj) (fun _ => rfl)

end AnatomyLens
